import Mathlib

/-!
Verification of the CRM order-creation and restock workflow.

This file gives a shallow embedding of the mutation logic of
`crm/schema.py` (CreateCustomer, BulkCreateCustomers, CreateProduct,
CreateOrder, UpdateLowStockProducts) together with the model-level
validation of `crm/models.py` (Django `full_clean`), and proves the
behavioural properties of that code.

Modelling conventions:
- Database state is an explicit record of lists of rows plus the
  auto-increment counters.  Primary keys are `Nat`.
- `DecimalField` values are exact decimals, modelled as integers in
  fixed units of 10 ^ -4 (four decimal places cover every value the
  claims mention; stored values with `decimal_places=2` are multiples
  of 100 units, and sums and comparisons of decimals are exact in this
  representation just as they are for Python `Decimal`).  The field
  options `max_digits` / `decimal_places` / `MinValueValidator` become
  explicit arithmetic side conditions checked by the `full_clean`
  models.
- `PositiveIntegerField` stock is an `Int` with the validator bounds
  `0 ≤ stock ≤ 2147483647` that Django derives from its default
  backend integer range for this field type.
- Python regex `re.match` with the pattern anchored by `$` matches at
  the end of the string or just before one trailing newline; the phone
  model reproduces this.  `\d` is modelled over the ASCII digits.
- Django `EmailField` also validates the e-mail shape with its own
  regex; no claim here depends on that check, so the customer
  `full_clean` model keeps only the length bound of that field.
- A caught `IntegrityError` raised by a row insert inside
  `transaction.atomic` leaves the connection marked `needs_rollback`
  (the inner atomic of `Model.save` sets it), so the whole block rolls
  back even though the mutation returns normally; a caught
  `ValidationError` raised by `full_clean` is not a database error, so
  the block commits whatever was already saved.  Both behaviours are
  modelled explicitly where they can occur.
-/

/-! ## Phone format (`validate_phone_format`, `crm/schema.py` lines 93-98) -/

/-- One character of `\d`, modelled over the ASCII digits. -/
def isDigitChar (c : Char) : Bool :=
  '0' ≤ c && c ≤ '9'

/-- The alternation `(\+\d{10,15}|\d{3}-\d{3}-\d{4})` of the phone
pattern, applied to a whole character list. -/
def phonePatternCore (cs : List Char) : Bool :=
  match cs with
  | '+' :: rest =>
      rest.all isDigitChar && decide (10 ≤ rest.length) && decide (rest.length ≤ 15)
  | [a1, a2, a3, '-', b1, b2, b3, '-', c1, c2, c3, c4] =>
      [a1, a2, a3, b1, b2, b3, c1, c2, c3, c4].all isDigitChar
  | _ => false

/-- Python `$` (without MULTILINE) matches at the end of the string or
just before a newline that ends the string: stripping one trailing
newline before requiring the pattern to reach the end models this. -/
def stripDollarNewline (cs : List Char) : List Char :=
  if cs.getLast? = some '\n' then cs.dropLast else cs

/-- `validate_phone_format` of `crm/schema.py`: an empty (falsy) phone
is valid, otherwise `bool(re.match(pattern, phone))`. -/
def validate_phone_format (phone : String) : Bool :=
  if phone = "" then true
  else phonePatternCore (stripDollarNewline phone.data)

/-- Modelled from the spec wording: a string "fully matches" the
pattern `^(\+\d{10,15}|\d{3}-\d{3}-\d{4})$` when the alternation
consumes the whole string, with no allowance for a trailing newline. -/
def phoneSpecFullMatch (phone : String) : Bool :=
  phonePatternCore phone.data

/-! ## Data model (`crm/models.py`)

Timestamps (`created_at`, `updated_at`, `order_date`) are set by the
framework (`auto_now` / `auto_now_add`), excluded from `full_clean`,
and no claim mentions them, so they are not part of the rows. -/

structure Customer where
  id : Nat
  name : String
  email : String
  phone : String
deriving DecidableEq

structure Product where
  id : Nat
  name : String
  description : String
  /-- decimal price in units of 10 ^ -4 -/
  price : Int
  stock : Int
deriving DecidableEq

structure Order where
  id : Nat
  customerId : Nat
  /-- decimal total in units of 10 ^ -4 -/
  totalAmount : Int
deriving DecidableEq

structure OrderItem where
  orderId : Nat
  productId : Nat
  quantity : Int
  /-- decimal price snapshot in units of 10 ^ -4 -/
  unitPrice : Int
deriving DecidableEq

/-- The persisted state: one list of rows per table plus the
auto-increment counters used to allocate fresh primary keys. -/
structure State where
  customers : List Customer
  products : List Product
  orders : List Order
  orderItems : List OrderItem
  nextCustomerId : Nat
  nextProductId : Nat
  nextOrderId : Nat
deriving DecidableEq

/-! ## GraphQL input and response shapes (`crm/schema.py`)

Optional (non-required) input fields are `Option`; a response field
the source sets to `None` on success (`errors=None`) is the empty
list, and a missing entity is `none`. -/

structure CustomerInput where
  name : String
  email : String
  phone : Option String
deriving DecidableEq

structure ProductInput where
  name : String
  description : Option String
  /-- decimal price in units of 10 ^ -4 -/
  price : Int
  stock : Option Int
deriving DecidableEq

structure OrderInput where
  customerId : Nat
  productIds : List Nat
deriving DecidableEq

structure CustomerResponse where
  success : Bool
  customer : Option Customer
  message : String
  errors : List String
deriving DecidableEq

structure BulkCustomerResponse where
  customers : List Customer
  errors : List String
deriving DecidableEq

structure ProductResponse where
  success : Bool
  product : Option Product
  message : String
  errors : List String
deriving DecidableEq

structure OrderResponse where
  success : Bool
  order : Option Order
  message : String
  errors : List String
deriving DecidableEq

structure LowStockUpdateResponse where
  success : Bool
  updatedProducts : List Product
  message : String
  errors : List String
deriving DecidableEq

/-! ## Lookups and utility validators -/

/-- `Customer.objects.get(id=...)`, `None` when `DoesNotExist`. -/
def findCustomer (s : State) (cid : Nat) : Option Customer :=
  s.customers.find? (fun c => c.id == cid)

/-- `Product.objects.get(id=...)`, `None` when `DoesNotExist`. -/
def findProduct (s : State) (pid : Nat) : Option Product :=
  s.products.find? (fun p => p.id == pid)

/-- `validate_email_unique` of `crm/schema.py` (always called without
`exclude_id` in the mutations under proof): no stored customer may
already carry the e-mail. -/
def validate_email_unique (s : State) (email : String) : Bool :=
  !(s.customers.any (fun c => c.email == email))

/-! ## Django `full_clean` models

`full_clean` runs the field validators, the model `clean` hook and the
unique checks; it raises a `ValidationError` carrying per-field
messages.  Each model below returns the list of collected
`"field: message"` strings; the empty list means the instance is
valid.  The exact validator message texts are abbreviated (no claim
inspects them); the set of checks follows `crm/models.py`. -/

/-- `Customer.full_clean`: `name` is a `CharField(max_length=100)`,
`email` an `EmailField` (default `max_length=254`, unique), `phone` a
`CharField(max_length=20, blank=True)`; `Customer.clean` re-checks the
phone pattern. -/
def customerFullClean (s : State) (c : Customer) : List String :=
  (if 100 < c.name.length then ["name: value too long"] else []) ++
  (if 254 < c.email.length then ["email: value too long"] else []) ++
  (if !(validate_email_unique s c.email) then
      ["email: Customer with this Email already exists."] else []) ++
  (if 20 < c.phone.length then ["phone: value too long"] else []) ++
  (if c.phone ≠ "" ∧ phonePatternCore (stripDollarNewline c.phone.data) = false then
      ["phone: Phone number must be in format: +1234567890 or 123-456-7890"] else [])

/-- `Product.full_clean`: `name` is unique with `max_length=100`;
`price` is `DecimalField(max_digits=10, decimal_places=2)` with
`MinValueValidator(0.01)`: in 10 ^ -4 units the minimum 0.01 is 100,
a stored value is a multiple of 100, and `max_digits=10` bounds the
absolute value below 10 ^ 12; `stock` is a `PositiveIntegerField`,
whose validators bound it to the backend integer range
`0..2147483647`. -/
def productFullClean (s : State) (p : Product) : List String :=
  (if 100 < p.name.length then ["name: value too long"] else []) ++
  (if s.products.any (fun q => q.id != p.id && q.name == p.name) then
      ["name: Product with this Name already exists."] else []) ++
  (if p.price < 100 then ["price: value below minimum 0.01"] else []) ++
  (if p.price % 100 ≠ 0 then ["price: more than 2 decimal places"] else []) ++
  (if 10 ^ 12 ≤ p.price then ["price: more than 10 digits"] else []) ++
  (if p.stock < 0 then ["stock: value below minimum 0"] else []) ++
  (if 2147483647 < p.stock then ["stock: value above maximum 2147483647"] else [])

/-- `Order.full_clean`: `total_amount` is
`DecimalField(max_digits=12, decimal_places=2)` with
`MinValueValidator(0.01)` (in 10 ^ -4 units: minimum 100, a multiple
of 100, absolute value below 10 ^ 14); the customer foreign key is
always set by the mutation before `full_clean` runs. -/
def orderFullClean (o : Order) : List String :=
  (if o.totalAmount < 100 then ["total_amount: value below minimum 0.01"] else []) ++
  (if o.totalAmount % 100 ≠ 0 then ["total_amount: more than 2 decimal places"] else []) ++
  (if 10 ^ 14 ≤ o.totalAmount then ["total_amount: more than 12 digits"] else [])

/-! ## `CreateCustomer.mutate` (`crm/schema.py` lines 116-171) -/

/-- `CreateCustomer.mutate`: phone-format check (a `None` or empty
phone is falsy and skips it), e-mail uniqueness check, then
`full_clean` and save.  Every failure is returned as a structured
response and leaves the state untouched. -/
def CreateCustomer.mutate (s : State) (input : CustomerInput) :
    CustomerResponse × State :=
  let phoneStr := input.phone.getD ""
  if phoneStr ≠ "" ∧ validate_phone_format phoneStr = false then
    (⟨false, none, "Validation failed",
      ["Phone number must be in format: +1234567890 or 123-456-7890"]⟩, s)
  else if validate_email_unique s input.email = false then
    (⟨false, none, "Validation failed", ["Email already exists"]⟩, s)
  else
    let c : Customer := ⟨s.nextCustomerId, input.name, input.email, phoneStr⟩
    match customerFullClean s c with
    | [] =>
        (⟨true, some c, "Customer created successfully", []⟩,
         { s with customers := s.customers ++ [c],
                  nextCustomerId := s.nextCustomerId + 1 })
    | errs => (⟨false, none, "Validation failed", errs⟩, s)

/-! ## `BulkCreateCustomers.mutate` (`crm/schema.py` lines 181-227)

The loop is wrapped in `transaction.atomic`, but every per-row failure
is caught inside the loop, so the block always exits normally and the
rows created so far are committed (a caught `ValidationError` is not a
database error and does not mark the transaction for rollback). -/

/-- One pass of the bulk loop: `created` and `errs` are the
accumulators, `idx` the zero-based row index (messages use
`index + 1`).  The intra-batch duplicate check compares against the
e-mails of `created_customers`, i.e. of the rows that were
successfully created so far. -/
def bulkGo (s : State) (created : List Customer) (errs : List String)
    (idx : Nat) : List CustomerInput → BulkCustomerResponse × State
  | [] => (⟨created, errs⟩, s)
  | row :: rest =>
      let phoneStr := row.phone.getD ""
      if row.email ∈ created.map Customer.email then
        bulkGo s created
          (errs ++ ["Row " ++ toString (idx + 1) ++ ": Email \x27" ++ row.email ++
                    "\x27 is duplicated in this request"]) (idx + 1) rest
      else if validate_email_unique s row.email = false then
        bulkGo s created
          (errs ++ ["Row " ++ toString (idx + 1) ++ ": Email \x27" ++ row.email ++
                    "\x27 already exists"]) (idx + 1) rest
      else if phoneStr ≠ "" ∧ validate_phone_format phoneStr = false then
        bulkGo s created
          (errs ++ ["Row " ++ toString (idx + 1) ++
                    ": Phone number must be in format: +1234567890 or 123-456-7890"])
          (idx + 1) rest
      else
        let c : Customer := ⟨s.nextCustomerId, row.name, row.email, phoneStr⟩
        match customerFullClean s c with
        | [] =>
            bulkGo
              { s with customers := s.customers ++ [c],
                       nextCustomerId := s.nextCustomerId + 1 }
              (created ++ [c]) errs (idx + 1) rest
        | ces =>
            bulkGo s created
              (errs ++ ["Row " ++ toString (idx + 1) ++ ": " ++
                        String.intercalate ", " ces]) (idx + 1) rest

/-- `BulkCreateCustomers.mutate`: processes the input rows in order
with per-row validation and partial success. -/
def BulkCreateCustomers.mutate (s : State) (input : List CustomerInput) :
    BulkCustomerResponse × State :=
  bulkGo s [] [] 0 input

/-! ## `CreateProduct.mutate` (`crm/schema.py` lines 238-293) -/

/-- `CreateProduct.mutate`: explicit `price > 0` and `stock ≥ 0`
checks (absent stock defaults to 0), then `full_clean` and save. -/
def CreateProduct.mutate (s : State) (input : ProductInput) :
    ProductResponse × State :=
  if input.price ≤ 0 then
    (⟨false, none, "Validation failed", ["Price must be greater than 0"]⟩, s)
  else
    let stock := input.stock.getD 0
    if stock < 0 then
      (⟨false, none, "Validation failed", ["Stock cannot be negative"]⟩, s)
    else
      let p : Product :=
        ⟨s.nextProductId, input.name, input.description.getD "", input.price, stock⟩
      match productFullClean s p with
      | [] =>
          (⟨true, some p, "Product created successfully", []⟩,
           { s with products := s.products ++ [p],
                    nextProductId := s.nextProductId + 1 })
      | errs => (⟨false, none, "Validation failed", errs⟩, s)

/-! ## `CreateOrder.mutate` (`crm/schema.py` lines 303-396) -/

/-- The order-item creation loop.  `OrderItem` has
`unique_together = [order, product]`: inserting a second row for the
same pair raises `IntegrityError` (`none`).  The row passes
`unit_price=product.price`, which is also what `OrderItem.save` would
snapshot. -/
def insertOrderItems (s : State) (oid : Nat) :
    List Product → Option State
  | [] => some s
  | p :: rest =>
      if s.orderItems.any (fun it => it.orderId == oid && it.productId == p.id) then
        none
      else
        insertOrderItems
          { s with orderItems := s.orderItems ++ [⟨oid, p.id, 1, p.price⟩] }
          oid rest

/-- `CreateOrder.mutate`: customer lookup, non-empty product list,
resolution of every product id (collecting all invalid ids), total
computation, order save, then one `OrderItem` per resolved product.
The source builds `products` and `invalid_product_ids` in one loop
over `input.product_ids`; the two comprehensions below are that split.
A failed item insert (`IntegrityError` caught by the outer handler)
leaves `needs_rollback` set, so the whole `transaction.atomic` block
is rolled back: the returned state is the initial one. -/
def CreateOrder.mutate (s : State) (input : OrderInput) :
    OrderResponse × State :=
  match findCustomer s input.customerId with
  | none =>
      (⟨false, none, "Validation failed",
        ["Customer with ID " ++ toString input.customerId ++ " does not exist"]⟩, s)
  | some customer =>
    if input.productIds.isEmpty then
      (⟨false, none, "Validation failed", ["At least one product is required"]⟩, s)
    else
      let products := input.productIds.filterMap (findProduct s)
      let invalidIds :=
        (input.productIds.filter (fun pid => (findProduct s pid).isNone)).map toString
      if invalidIds.isEmpty = false then
        (⟨false, none, "Validation failed",
          ["Invalid product IDs: " ++ String.intercalate ", " invalidIds]⟩, s)
      else
        let totalAmount := (products.map Product.price).sum
        let order : Order := ⟨s.nextOrderId, customer.id, totalAmount⟩
        match orderFullClean order with
        | [] =>
            let s1 := { s with orders := s.orders ++ [order],
                               nextOrderId := s.nextOrderId + 1 }
            match insertOrderItems s1 order.id products with
            | some s2 => (⟨true, some order, "Order created successfully", []⟩, s2)
            | none =>
                (⟨false, none, "Failed to create order",
                  ["UNIQUE constraint failed: crm_orderitem.order_id, crm_orderitem.product_id"]⟩,
                 s)
        | errs => (⟨false, none, "Validation failed", errs⟩, s)

/-! ## `UpdateLowStockProducts.mutate` (`crm/schema.py` lines 546-603) -/

/-- `product.save()` after mutating the fetched row: replace the
stored row with the same primary key. -/
def saveProduct (s : State) (p : Product) : State :=
  { s with products := s.products.map (fun q => if q.id == p.id then p else q) }

/-- The stock increment applied to one fetched low-stock row. -/
def bump (restock : Int) (p : Product) : Product :=
  { p with stock := p.stock + restock }

/-- The restock loop over the already-fetched low-stock queryset.  A
`full_clean` failure raises a `ValidationError` that the mutation
catches; that is not a database error, so the surrounding
`transaction.atomic` block still commits the products saved before
it — the state reached so far is returned together with the failure
response. -/
def restockGo (restock : Int) (s : State) (updated : List Product) :
    List Product → LowStockUpdateResponse × State
  | [] =>
      (⟨true, updated,
        "Successfully updated " ++ toString updated.length ++ " low-stock products",
        []⟩, s)
  | p :: rest =>
      let p2 := bump restock p
      match productFullClean s p2 with
      | [] => restockGo restock (saveProduct s p2) (updated ++ [p2]) rest
      | errs => (⟨false, [], "Validation failed during update", errs⟩, s)

/-- Lexicographic code-point comparison on the character lists backing
two strings (the order a database applies to a `CharField`). -/
def nameLeAux : List Char → List Char → Bool
  | [], _ => true
  | _ :: _, [] => false
  | a :: as, b :: bs =>
      if a.toNat < b.toNat then true
      else if b.toNat < a.toNat then false
      else nameLeAux as bs

/-- Name ordering used by the low-stock queryset. -/
def nameLe (a b : String) : Bool :=
  nameLeAux a.data b.data

/-- `Product.objects.filter(stock__lt=10)` evaluated into a list: the
default ordering of the `Product` model is by `name`
(`Meta.ordering = [name]`), so the fetched rows come sorted by
name. -/
def lowStockQuery (s : State) : List Product :=
  (s.products.filter (fun p => p.stock < 10)).insertionSort
    (fun p q => nameLe p.name q.name = true)

/-- `UpdateLowStockProducts.mutate`: reject a non-positive restock
amount, fetch the low-stock rows once, return early when there are
none, otherwise bump and save each fetched row. -/
def UpdateLowStockProducts.mutate (s : State) (restockAmount : Int) :
    LowStockUpdateResponse × State :=
  if restockAmount ≤ 0 then
    (⟨false, [], "Validation failed", ["Restock amount must be greater than 0"]⟩, s)
  else
    let lows := lowStockQuery s
    if lows.isEmpty then
      (⟨true, [], "No low-stock products found", []⟩, s)
    else
      restockGo restockAmount s [] lows

/-! ## State predicates used by the theorems -/

/-- A well-formed store: distinct primary keys and every stored
product passes its own model validation (which any row saved through
the mutations did). -/
def WF (s : State) : Prop :=
  (s.products.map Product.id).Nodup ∧
  ∀ p ∈ s.products, productFullClean s p = []

/-- The order auto-increment counter is ahead of every stored order id
and of every order id referenced by a stored item, as it is in any
state reached by allocating ids from the counter. -/
def FreshOrderIds (s : State) : Prop :=
  (∀ o ∈ s.orders, o.id ≠ s.nextOrderId) ∧
  ∀ it ∈ s.orderItems, it.orderId ≠ s.nextOrderId

/-- The `unique_together = [order, product]` database constraint as a
state invariant. -/
def PairsUnique (items : List OrderItem) : Prop :=
  (items.map (fun it => (it.orderId, it.productId))).Nodup

theorem phonePatternCore_last_digit (cs : List Char)
    (h : phonePatternCore cs = true) :
    ∃ c, cs.getLast? = some c ∧ isDigitChar c = true := by
  unfold phonePatternCore at h
  split at h
  · rename_i rest
    simp only [Bool.and_eq_true, decide_eq_true_eq] at h
    obtain ⟨⟨hall, hlen⟩, -⟩ := h
    have hne : rest ≠ [] := by
      intro hcon
      simp [hcon] at hlen
    refine ⟨('+' :: rest).getLast (by simp), ?_, ?_⟩
    · exact (List.getLast?_eq_getLast _ _).symm ▸ rfl
    · have hmem : ('+' :: rest).getLast (by simp) ∈ '+' :: rest :=
        List.getLast_mem _
      have hlast : ('+' :: rest).getLast (by simp) = rest.getLast hne := by
        exact List.getLast_cons hne
      have : rest.getLast hne ∈ rest := List.getLast_mem hne
      exact hlast ▸ (List.all_eq_true.mp hall _ this)
  · simp only [List.all_cons, List.all_nil, Bool.and_eq_true, Bool.and_true] at h
    exact ⟨_, rfl, by tauto⟩
  · exact absurd h (by simp)

theorem phonePatternCore_ne_newline_end (cs : List Char)
    (h : cs.getLast? = some '\n') : phonePatternCore cs = false := by
  by_contra hcon
  have htrue : phonePatternCore cs = true := by
    cases hv : phonePatternCore cs
    · exact absurd hv hcon
    · rfl
  obtain ⟨c, hc, hd⟩ := phonePatternCore_last_digit cs htrue
  rw [h] at hc
  cases hc
  simp [isDigitChar] at hd

/-- C5 (amended): `validate_phone_format` accepts the empty string,
any string that fully matches `^(\+\d{10,15}|\d{3}-\d{3}-\d{4})$`, and
additionally any such match followed by one trailing newline (the
semantics Python gives `$` in `re.match`); it rejects everything
else. -/
theorem C5_validate_phone_format_characterization (phone : String) :
    validate_phone_format phone = true ↔
      (phone = "" ∨ phoneSpecFullMatch phone = true ∨
        (phone.data.getLast? = some '\n' ∧
          phonePatternCore phone.data.dropLast = true)) := by
  unfold validate_phone_format phoneSpecFullMatch stripDollarNewline
  by_cases hE : phone = ""
  · simp [hE]
  · by_cases hN : phone.data.getLast? = some '\n'
    · have hfalse : phonePatternCore phone.data = false :=
        phonePatternCore_ne_newline_end _ hN
      simp [hE, hN, hfalse]
    · simp [hE, hN]

/-- C5 counterexample: a matching prefix followed by a trailing
newline is an extra character after the pattern, which the claim says
must be rejected, yet `validate_phone_format` accepts it. -/
theorem C5_counterexample_trailing_newline :
    validate_phone_format "+12345678901\n" = true ∧
    ("+12345678901\n" : String) ≠ "" ∧
    phoneSpecFullMatch "+12345678901\n" = false := by
  refine ⟨by decide, by decide, by decide⟩

theorem validate_email_unique_false (s : State) (email : String)
    (h : email ∈ s.customers.map Customer.email) :
    validate_email_unique s email = false := by
  obtain ⟨c, hc, he⟩ := List.mem_map.mp h
  simp only [validate_email_unique, Bool.not_eq_false', List.any_eq_true]
  exact ⟨c, hc, by simp [he]⟩

/-- C7 (amended): a `createCustomer` call whose e-mail already belongs
to a stored customer always fails and persists nothing; the reported
error is the duplicate-e-mail conflict whenever the supplied phone (if
any) passes the format check — an invalid phone is reported instead,
because the phone check runs first. -/
theorem C7_duplicate_email_rejected (s : State) (input : CustomerInput)
    (hdup : input.email ∈ s.customers.map Customer.email) :
    (CreateCustomer.mutate s input).2 = s ∧
    (CreateCustomer.mutate s input).1.success = false ∧
    (CreateCustomer.mutate s input).1.customer = none ∧
    ((input.phone.getD "" = "" ∨ validate_phone_format (input.phone.getD "") = true) →
      (CreateCustomer.mutate s input).1.errors = ["Email already exists"]) := by
  have huniq := validate_email_unique_false s input.email hdup
  by_cases hph : input.phone.getD "" ≠ "" ∧
      validate_phone_format (input.phone.getD "") = false
  · refine ⟨?_, ?_, ?_, ?_⟩ <;>
      simp only [CreateCustomer.mutate, if_pos hph]
    · intro hor
      rcases hor with h1 | h2
      · exact absurd h1 hph.1
      · rw [hph.2] at h2
        exact absurd h2 (by simp)
  · refine ⟨?_, ?_, ?_, fun _ => ?_⟩ <;>
      simp only [CreateCustomer.mutate, if_neg hph, huniq, Bool.false_eq_true,
        not_false_eq_true, if_neg, if_pos]

/-- C7 counterexample: the claim requires the duplicate-e-mail
conflict error on every duplicate-e-mail call, but when the phone is
also invalid the phone error is returned instead. -/
theorem C7_counterexample_phone_error_first :
    let s : State := ⟨[⟨1, "A", "a@x.com", ""⟩], [], [], [], 2, 1, 1⟩
    let input : CustomerInput := ⟨"B", "a@x.com", some "12345"⟩
    input.email ∈ s.customers.map Customer.email ∧
    (CreateCustomer.mutate s input).1.success = false ∧
    (CreateCustomer.mutate s input).1.errors ≠ ["Email already exists"] := by
  refine ⟨by decide, by decide, by decide⟩

/-- C7 witness: a duplicate-e-mail call with a valid (absent) phone on
a concrete store. -/
theorem C7_duplicate_email_rejected_witness :
    let s : State := ⟨[⟨1, "A", "a@x.com", ""⟩], [], [], [], 2, 1, 1⟩
    let input : CustomerInput := ⟨"B", "a@x.com", none⟩
    (CreateCustomer.mutate s input).2 = s ∧
    (CreateCustomer.mutate s input).1.success = false ∧
    (CreateCustomer.mutate s input).1.customer = none ∧
    ((input.phone.getD "" = "" ∨ validate_phone_format (input.phone.getD "") = true) →
      (CreateCustomer.mutate s input).1.errors = ["Email already exists"]) :=
  C7_duplicate_email_rejected _ _ (by decide)

/-- C9 (amended): `createProduct` rejects `price ≤ 0` and negative
stock without persisting anything, and defaults absent stock to 0; a
fresh-named input is persisted with success only when it also passes
the model validators that `full_clean` runs — `price ≥ 0.01` with at
most two decimal places and at most ten digits (in 10 ^ -4 units:
`100 ≤ price`, `price % 100 = 0`, `price < 10 ^ 12`), stock within the
backend bound 2147483647, and a name of at most 100 characters.  (The
unamended claim promised success for every `price > 0`, which
`full_clean` refutes, e.g. at price 0.005.) -/
theorem C9_create_product (s : State) (input : ProductInput) :
    (input.price ≤ 0 →
      (CreateProduct.mutate s input).1.success = false ∧
      (CreateProduct.mutate s input).1.product = none ∧
      (CreateProduct.mutate s input).2 = s) ∧
    (input.stock.getD 0 < 0 →
      (CreateProduct.mutate s input).1.success = false ∧
      (CreateProduct.mutate s input).1.product = none ∧
      (CreateProduct.mutate s input).2 = s) ∧
    (100 ≤ input.price → input.price % 100 = 0 → input.price < 10 ^ 12 →
      0 ≤ input.stock.getD 0 → input.stock.getD 0 ≤ 2147483647 →
      input.name.length ≤ 100 → (∀ p ∈ s.products, p.name ≠ input.name) →
      (CreateProduct.mutate s input).1.success = true ∧
      (CreateProduct.mutate s input).1.product =
        some ⟨s.nextProductId, input.name, input.description.getD "",
              input.price, input.stock.getD 0⟩ ∧
      (CreateProduct.mutate s input).2.products =
        s.products ++ [⟨s.nextProductId, input.name, input.description.getD "",
                        input.price, input.stock.getD 0⟩]) := by
  refine ⟨fun hp => ?_, fun hs => ?_, ?_⟩
  · simp [CreateProduct.mutate, hp]
  · by_cases hp : input.price ≤ 0
    · simp [CreateProduct.mutate, hp]
    · simp [CreateProduct.mutate, hp, hs]
  · intro h1 h2 h3 h4 h5 h6 h7
    have hp : ¬ input.price ≤ 0 := by omega
    have hsn : ¬ input.stock.getD 0 < 0 := by omega
    have hclean : productFullClean s
        ⟨s.nextProductId, input.name, input.description.getD "",
         input.price, input.stock.getD 0⟩ = [] := by
      have hany : s.products.any
          (fun q => q.id != s.nextProductId && q.name == input.name) = false := by
        rw [List.any_eq_false]
        intro q hq
        simp [h7 q hq]
      have h3l : input.price < 1000000000000 := by simpa using h3
      simp only [productFullClean, hany]
      simp [not_lt.mpr h1, h2, not_le.mpr h3l, not_lt.mpr h4, not_lt.mpr h5,
        not_lt.mpr h6]
    simp [CreateProduct.mutate, hp, hsn, hclean]

/-- C9 counterexample: price 0.005 (50 units of 10 ^ -4) is strictly
positive, the stock defaults to 0 and the name is fresh, so the claim
promises a persisted product with success — yet `full_clean` rejects
the price as below the 0.01 validator minimum, and the call fails and
persists nothing. -/
theorem C9_counterexample_price_below_validator :
    let s : State := ⟨[], [], [], [], 1, 1, 1⟩
    let input : ProductInput := ⟨"widget", none, 50, none⟩
    (0 : Int) < input.price ∧ (0 : Int) ≤ input.stock.getD 0 ∧
    (∀ p ∈ s.products, p.name ≠ input.name) ∧
    (CreateProduct.mutate s input).1.success = false ∧
    (CreateProduct.mutate s input).1.product = none ∧
    (CreateProduct.mutate s input).2 = s := by
  refine ⟨by decide, by decide, by decide, by decide, by decide, by decide⟩

/-- C9 witness: the rejection branch at price 0 and the success branch
at a concrete valid input (price 2.00, stock 7). -/
theorem C9_create_product_witness :
    ((0 : Int) ≤ 0 →
      (CreateProduct.mutate ⟨[], [], [], [], 1, 1, 1⟩ ⟨"w", none, 0, none⟩).1.success = false ∧
      (CreateProduct.mutate ⟨[], [], [], [], 1, 1, 1⟩ ⟨"w", none, 0, none⟩).1.product = none ∧
      (CreateProduct.mutate ⟨[], [], [], [], 1, 1, 1⟩ ⟨"w", none, 0, none⟩).2 =
        ⟨[], [], [], [], 1, 1, 1⟩) ∧
    ((CreateProduct.mutate ⟨[], [], [], [], 1, 1, 1⟩
        ⟨"w", none, 20000, some 7⟩).1.success = true ∧
      (CreateProduct.mutate ⟨[], [], [], [], 1, 1, 1⟩
        ⟨"w", none, 20000, some 7⟩).1.product = some ⟨1, "w", "", 20000, 7⟩ ∧
      (CreateProduct.mutate ⟨[], [], [], [], 1, 1, 1⟩
        ⟨"w", none, 20000, some 7⟩).2.products = [] ++ [⟨1, "w", "", 20000, 7⟩]) := by
  constructor
  · exact fun h =>
      (C9_create_product ⟨[], [], [], [], 1, 1, 1⟩ ⟨"w", none, 0, none⟩).1 h
  · exact (C9_create_product ⟨[], [], [], [], 1, 1, 1⟩ ⟨"w", none, 20000, some 7⟩).2.2
      (by decide) (by decide) (by decide) (by decide) (by decide) (by decide)
      (by decide)

theorem restockGo_success_false (restock : Int) :
    ∀ (l : List Product) (s : State) (u : List Product),
      (restockGo restock s u l).1.success = false →
      (restockGo restock s u l).1.updatedProducts = [] := by
  intro l
  induction l with
  | nil =>
      intro s u h
      simp [restockGo] at h
  | cons p rest ih =>
      intro s u
      unfold restockGo
      dsimp only
      split
      · exact ih _ _
      · intro _
        rfl

/-- C8: every mutating operation returns a structured response (the
mutation functions are total, so no failure crosses the operation
boundary), and a response carrying `success = false` never carries an
entity: the customer, product or order field is `none` and the
restock update list is empty.  `bulkCreateCustomers` carries no
success flag; its response is the structured customers/errors pair by
construction. -/
theorem C8_failure_returns_no_entity (s : State) (ci : CustomerInput)
    (pin : ProductInput) (oi : OrderInput) (restock : Int) :
    ((CreateCustomer.mutate s ci).1.success = false →
      (CreateCustomer.mutate s ci).1.customer = none) ∧
    ((CreateProduct.mutate s pin).1.success = false →
      (CreateProduct.mutate s pin).1.product = none) ∧
    ((CreateOrder.mutate s oi).1.success = false →
      (CreateOrder.mutate s oi).1.order = none) ∧
    ((UpdateLowStockProducts.mutate s restock).1.success = false →
      (UpdateLowStockProducts.mutate s restock).1.updatedProducts = []) := by
  refine ⟨?_, ?_, ?_, ?_⟩
  · unfold CreateCustomer.mutate
    dsimp only
    split_ifs
    · simp
    · simp
    · split <;> simp
  · unfold CreateProduct.mutate
    dsimp only
    split_ifs
    · simp
    · simp
    · split <;> simp
  · unfold CreateOrder.mutate
    dsimp only
    split
    · simp
    · split_ifs
      · simp
      · simp
      · split
        · split <;> simp
        · simp
  · unfold UpdateLowStockProducts.mutate
    dsimp only
    split_ifs
    · simp
    · simp
    · exact restockGo_success_false restock _ s []

/-- C8 witness: a duplicate-e-mail customer call, a zero-price product
call, an order call with a missing customer, and a zero restock call
all fail, and the theorem yields the absent entity in each. -/
theorem C8_failure_returns_no_entity_witness :
    (CreateCustomer.mutate ⟨[⟨1, "A", "a@x.com", ""⟩], [], [], [], 2, 1, 1⟩
      ⟨"B", "a@x.com", none⟩).1.customer = none ∧
    (CreateProduct.mutate ⟨[], [], [], [], 1, 1, 1⟩
      ⟨"w", none, 0, none⟩).1.product = none ∧
    (CreateOrder.mutate ⟨[], [], [], [], 1, 1, 1⟩ ⟨1, [1]⟩).1.order = none ∧
    (UpdateLowStockProducts.mutate ⟨[], [], [], [], 1, 1, 1⟩ 0).1.updatedProducts = [] :=
  ⟨(C8_failure_returns_no_entity ⟨[⟨1, "A", "a@x.com", ""⟩], [], [], [], 2, 1, 1⟩
      ⟨"B", "a@x.com", none⟩ ⟨"w", none, 0, none⟩ ⟨1, [1]⟩ 0).1 (by decide),
   (C8_failure_returns_no_entity ⟨[], [], [], [], 1, 1, 1⟩
      ⟨"B", "a@x.com", none⟩ ⟨"w", none, 0, none⟩ ⟨1, [1]⟩ 0).2.1 (by decide),
   (C8_failure_returns_no_entity ⟨[], [], [], [], 1, 1, 1⟩
      ⟨"B", "a@x.com", none⟩ ⟨"w", none, 0, none⟩ ⟨1, [1]⟩ 0).2.2.1 (by decide),
   (C8_failure_returns_no_entity ⟨[], [], [], [], 1, 1, 1⟩
      ⟨"B", "a@x.com", none⟩ ⟨"w", none, 0, none⟩ ⟨1, [1]⟩ 0).2.2.2 (by decide)⟩

/-- C1 (amended): for every `createOrder` call that reaches the
product-resolution step — the customer exists — in which at least one
product id does not resolve, the call returns a structured failure
whose single error message lists all invalid ids (in input order, not
only the first), carries no order, and leaves the stored state
exactly as it was.  (The unamended claim also covered calls whose
customer id does not resolve; those fail with the customer error
instead, which does not list the invalid product ids.) -/
theorem C1_invalid_product_ids_all_reported (s : State) (input : OrderInput)
    (c : Customer) (hc : findCustomer s input.customerId = some c)
    (hinv : ∃ pid ∈ input.productIds, findProduct s pid = none) :
    (CreateOrder.mutate s input).2 = s ∧
    (CreateOrder.mutate s input).1.success = false ∧
    (CreateOrder.mutate s input).1.order = none ∧
    (CreateOrder.mutate s input).1.errors =
      ["Invalid product IDs: " ++ String.intercalate ", "
        ((input.productIds.filter (fun pid => (findProduct s pid).isNone)).map
          toString)] := by
  obtain ⟨pid, hmem, hnone⟩ := hinv
  have hne : input.productIds.isEmpty = false := by
    cases h : input.productIds with
    | nil => rw [h] at hmem; simp at hmem
    | cons a l => simp [h]
  have hfil : pid ∈ input.productIds.filter (fun pid => (findProduct s pid).isNone) :=
    List.mem_filter.mpr ⟨hmem, by simp [hnone]⟩
  have hinvne :
      ((input.productIds.filter (fun pid => (findProduct s pid).isNone)).map
        toString).isEmpty = false := by
    have h1 : input.productIds.filter (fun pid => (findProduct s pid).isNone) ≠ [] :=
      List.ne_nil_of_mem hfil
    simp [List.isEmpty_iff, h1]
  simp only [CreateOrder.mutate, hc]
  simp [hne, hinvne]

/-- C1 counterexample: a call whose customer id and product id are
both unresolved returns the customer failure, whose error message is
not the list of invalid product ids the claim requires for every call
containing an unresolvable product id. -/
theorem C1_counterexample_missing_customer :
    let s : State := ⟨[], [], [], [], 1, 1, 1⟩
    let input : OrderInput := ⟨1, [5]⟩
    (∃ pid ∈ input.productIds, findProduct s pid = none) ∧
    (CreateOrder.mutate s input).1.errors = ["Customer with ID 1 does not exist"] ∧
    (CreateOrder.mutate s input).1.errors ≠
      ["Invalid product IDs: " ++ String.intercalate ", "
        ((input.productIds.filter (fun pid => (findProduct s pid).isNone)).map
          toString)] := by
  refine ⟨by decide, by decide, by decide⟩

/-- C1 witness: an existing customer, one resolvable and two
unresolvable product ids; the message lists both invalid ids. -/
theorem C1_invalid_product_ids_all_reported_witness :
    let s : State := ⟨[⟨1, "A", "a@x.com", ""⟩], [⟨1, "p1", "", 20000, 5⟩],
      [], [], 2, 2, 1⟩
    let input : OrderInput := ⟨1, [7, 1, 9]⟩
    (CreateOrder.mutate s input).2 = s ∧
    (CreateOrder.mutate s input).1.success = false ∧
    (CreateOrder.mutate s input).1.order = none ∧
    (CreateOrder.mutate s input).1.errors =
      ["Invalid product IDs: " ++ String.intercalate ", "
        ((input.productIds.filter (fun pid => (findProduct s pid).isNone)).map
          toString)] :=
  C1_invalid_product_ids_all_reported _ _ ⟨1, "A", "a@x.com", ""⟩ (by decide)
    ⟨7, by decide, by decide⟩

theorem bulkGo_length :
    ∀ (rows : List CustomerInput) (s : State) (created : List Customer)
      (errs : List String) (idx : Nat),
      (bulkGo s created errs idx rows).1.customers.length +
        (bulkGo s created errs idx rows).1.errors.length =
      created.length + errs.length + rows.length := by
  intro rows
  induction rows with
  | nil =>
      intro s c e i
      simp [bulkGo]
  | cons row rest ih =>
      intro s c e i
      unfold bulkGo
      dsimp only
      split_ifs
      · rw [ih]; simp; omega
      · rw [ih]; simp; omega
      · rw [ih]; simp; omega
      · split
        · rw [ih]; simp; omega
        · rw [ih]; simp; omega

theorem bulkGo_append :
    ∀ (xs ys : List CustomerInput) (s : State) (created : List Customer)
      (errs : List String) (idx : Nat),
      bulkGo s created errs idx (xs ++ ys) =
        bulkGo (bulkGo s created errs idx xs).2
          (bulkGo s created errs idx xs).1.customers
          (bulkGo s created errs idx xs).1.errors (idx + xs.length) ys := by
  intro xs
  induction xs with
  | nil =>
      intro ys s c e i
      simp [bulkGo]
  | cons x xs ih =>
      intro ys s c e i
      rw [List.cons_append]
      simp only [bulkGo]
      split_ifs
      · rw [ih]; simp [Nat.add_assoc, Nat.add_comm, Nat.add_left_comm]
      · rw [ih]; simp [Nat.add_assoc, Nat.add_comm, Nat.add_left_comm]
      · rw [ih]; simp [Nat.add_assoc, Nat.add_comm, Nat.add_left_comm]
      · split
        · rw [ih]; simp [Nat.add_assoc, Nat.add_comm, Nat.add_left_comm]
        · rw [ih]; simp [Nat.add_assoc, Nat.add_comm, Nat.add_left_comm]

/-- C6 (amended): `bulkCreateCustomers` processes its rows in list
order with partial success: every row contributes exactly one outcome
(a created customer or one row-indexed error), a failing row never
aborts the processing of the rows after it, and the intra-batch
duplicate-e-mail check rejects an e-mail equal to that of an earlier
*successfully created* row of the same call.  (The unamended claim
said the check covers any earlier row; e-mails of earlier rows that
failed validation are not checked against, as the counterexample
shows.) -/
theorem C6_bulk_partial_success (s : State) (xs ys : List CustomerInput)
    (row : CustomerInput) (rest : List CustomerInput)
    (created : List Customer) (errs : List String) (i : Nat)
    (hdup : row.email ∈ created.map Customer.email) :
    ((BulkCreateCustomers.mutate s (xs ++ ys)).1.customers.length +
        (BulkCreateCustomers.mutate s (xs ++ ys)).1.errors.length =
      xs.length + ys.length) ∧
    (BulkCreateCustomers.mutate s (xs ++ ys) =
      bulkGo (bulkGo s [] [] 0 xs).2 (bulkGo s [] [] 0 xs).1.customers
        (bulkGo s [] [] 0 xs).1.errors xs.length ys) ∧
    (bulkGo s created errs i (row :: rest) =
      bulkGo s created
        (errs ++ ["Row " ++ toString (i + 1) ++ ": Email \x27" ++ row.email ++
                  "\x27 is duplicated in this request"]) (i + 1) rest) := by
  refine ⟨?_, ?_, ?_⟩
  · simpa [BulkCreateCustomers.mutate] using bulkGo_length (xs ++ ys) s [] [] 0
  · simpa [BulkCreateCustomers.mutate] using bulkGo_append xs ys s [] [] 0
  · simp only [bulkGo]
    rw [if_pos hdup]

/-- C6 counterexample: the first row fails phone validation, the
second row re-uses its e-mail; the claim requires the second row to be
rejected as a duplicate of a row seen earlier in the same call, but
the code only checks against successfully created rows and creates
it. -/
theorem C6_counterexample_failed_row_email_not_checked :
    let s : State := ⟨[], [], [], [], 1, 1, 1⟩
    let rows : List CustomerInput :=
      [⟨"A", "a@x.com", some "12345"⟩, ⟨"B", "a@x.com", none⟩]
    (rows.get ⟨1, by decide⟩).email = (rows.get ⟨0, by decide⟩).email ∧
    (BulkCreateCustomers.mutate s rows).1.customers.map Customer.email =
      ["a@x.com"] ∧
    (BulkCreateCustomers.mutate s rows).1.errors =
      ["Row 1: Phone number must be in format: +1234567890 or 123-456-7890"] := by
  refine ⟨by decide, by decide, by decide⟩

/-- C6 witness: empty batch split and one duplicated row against one
previously created customer. -/
theorem C6_bulk_partial_success_witness :
    ((BulkCreateCustomers.mutate ⟨[], [], [], [], 1, 1, 1⟩
        ([] ++ [])).1.customers.length +
      (BulkCreateCustomers.mutate ⟨[], [], [], [], 1, 1, 1⟩
        ([] ++ [])).1.errors.length = 0 + 0) ∧
    (BulkCreateCustomers.mutate ⟨[], [], [], [], 1, 1, 1⟩ ([] ++ []) =
      bulkGo (bulkGo ⟨[], [], [], [], 1, 1, 1⟩ [] [] 0 []).2
        (bulkGo ⟨[], [], [], [], 1, 1, 1⟩ [] [] 0 []).1.customers
        (bulkGo ⟨[], [], [], [], 1, 1, 1⟩ [] [] 0 []).1.errors 0 []) ∧
    (bulkGo ⟨[], [], [], [], 1, 1, 1⟩ [⟨5, "X", "c@x.com", ""⟩] [] 0
        [⟨"C", "c@x.com", none⟩] =
      bulkGo ⟨[], [], [], [], 1, 1, 1⟩ [⟨5, "X", "c@x.com", ""⟩]
        ["Row 1: Email \x27c@x.com\x27 is duplicated in this request"] 1 []) :=
  C6_bulk_partial_success ⟨[], [], [], [], 1, 1, 1⟩ [] [] ⟨"C", "c@x.com", none⟩
    [] [⟨5, "X", "c@x.com", ""⟩] [] 0 (by decide)

theorem insertOrderItems_collision (oid : Nat) :
    ∀ (prods : List Product) (s : State) (q : Product), q ∈ prods →
      s.orderItems.any (fun it => it.orderId == oid && it.productId == q.id) = true →
      insertOrderItems s oid prods = none := by
  intro prods
  induction prods with
  | nil =>
      intro s q hq _
      simp at hq
  | cons p rest ih =>
      intro s q hq hcol
      unfold insertOrderItems
      by_cases hp :
        s.orderItems.any (fun it => it.orderId == oid && it.productId == p.id) = true
      · rw [if_pos hp]
      · rw [if_neg hp]
        rcases List.mem_cons.mp hq with h | h
        · subst h
          exact absurd hcol hp
        · apply ih _ q h
          simp [List.any_append, hcol]

theorem insertOrderItems_dup_none (oid : Nat) :
    ∀ (prods : List Product) (s : State), ¬ (prods.map Product.id).Nodup →
      insertOrderItems s oid prods = none := by
  intro prods
  induction prods with
  | nil =>
      intro s h
      simp at h
  | cons p rest ih =>
      intro s h
      rw [List.map_cons, List.nodup_cons] at h
      unfold insertOrderItems
      by_cases hp :
        s.orderItems.any (fun it => it.orderId == oid && it.productId == p.id) = true
      · rw [if_pos hp]
      · rw [if_neg hp]
        rcases not_and_or.mp h with hmem | hnd
        · obtain ⟨q, hq, hqid⟩ := List.mem_map.mp (not_not.mp hmem)
          apply insertOrderItems_collision oid rest _ q hq
          simp [List.any_append, hqid]
        · exact ih _ hnd

theorem filterMap_findProduct_ids (s : State) :
    ∀ (pids : List Nat), (∀ pid ∈ pids, (findProduct s pid).isSome = true) →
      (pids.filterMap (findProduct s)).map Product.id = pids := by
  intro pids
  induction pids with
  | nil => intro _; simp
  | cons pid rest ih =>
      intro h
      obtain ⟨p, hp⟩ :=
        Option.isSome_iff_exists.mp (h pid (List.mem_cons_self pid rest))
      have hid : p.id = pid := by
        have := List.find?_some hp
        simpa using this
      rw [List.filterMap_cons, hp, List.map_cons, hid,
        ih (fun q hq => h q (List.mem_cons_of_mem _ hq))]

/-- C10: a `createOrder` call on an existing customer whose product id
list repeats an existing product id fails with a null order and
persists nothing — the second `OrderItem` insert for the same
(order, product) pair violates `unique_together`, the raised
`IntegrityError` marks the transaction for rollback, and the whole
atomic block is undone — and the stored items keep satisfying the
pairwise-uniqueness invariant. -/
theorem C10_duplicate_product_ids (s : State) (input : OrderInput)
    (c : Customer) (hc : findCustomer s input.customerId = some c)
    (hall : ∀ pid ∈ input.productIds, (findProduct s pid).isSome = true)
    (hdup : ¬ input.productIds.Nodup)
    (hpu : PairsUnique s.orderItems) :
    (CreateOrder.mutate s input).1.success = false ∧
    (CreateOrder.mutate s input).1.order = none ∧
    (CreateOrder.mutate s input).2 = s ∧
    PairsUnique (CreateOrder.mutate s input).2.orderItems := by
  have hne : input.productIds.isEmpty = false := by
    cases h : input.productIds with
    | nil => rw [h] at hdup; simp at hdup
    | cons a l => simp [h]
  have hfil : input.productIds.filter (fun pid => (findProduct s pid).isNone) = [] := by
    rw [List.filter_eq_nil_iff]
    intro pid hpid
    simp [Option.isNone_iff_eq_none]
    exact Option.isSome_iff_exists.mp (hall pid hpid) |>.elim
      (fun p hp => by simp [hp])
  have hids : ¬ ((input.productIds.filterMap (findProduct s)).map Product.id).Nodup := by
    rw [filterMap_findProduct_ids s _ hall]
    exact hdup
  have hins := fun st => insertOrderItems_dup_none s.nextOrderId
    (input.productIds.filterMap (findProduct s)) st hids
  simp only [CreateOrder.mutate, hc]
  rcases hfc : orderFullClean
      ⟨s.nextOrderId, c.id,
        ((input.productIds.filterMap (findProduct s)).map Product.price).sum⟩ with
    _ | ⟨e, es⟩
  · simp [hne, hfil, hfc, hins, hpu]
  · simp [hne, hfil, hfc, hpu]

/-- C10 witness: an existing customer and product, with the product id
repeated in the order. -/
theorem C10_duplicate_product_ids_witness :
    let s : State := ⟨[⟨1, "A", "a@x.com", ""⟩], [⟨1, "p1", "", 20000, 5⟩],
      [], [], 2, 2, 1⟩
    let input : OrderInput := ⟨1, [1, 1]⟩
    (CreateOrder.mutate s input).1.success = false ∧
    (CreateOrder.mutate s input).1.order = none ∧
    (CreateOrder.mutate s input).2 = s ∧
    PairsUnique (CreateOrder.mutate s input).2.orderItems :=
  C10_duplicate_product_ids _ _ ⟨1, "A", "a@x.com", ""⟩ (by decide) (by decide)
    (by decide) (by simp [PairsUnique])

theorem insertOrderItems_ok (oid : Nat) :
    ∀ (prods : List Product) (s : State),
      (prods.map Product.id).Nodup →
      (∀ q ∈ prods, s.orderItems.any
        (fun it => it.orderId == oid && it.productId == q.id) = false) →
      insertOrderItems s oid prods =
        some { s with orderItems :=
          s.orderItems ++ prods.map (fun p => ⟨oid, p.id, 1, p.price⟩) } := by
  intro prods
  induction prods with
  | nil =>
      intro s _ _
      simp [insertOrderItems]
  | cons p rest ih =>
      intro s hnd hno
      rw [List.map_cons, List.nodup_cons] at hnd
      unfold insertOrderItems
      rw [if_neg (by simp [hno p (List.mem_cons_self p rest)])]
      have hno2 : ∀ q ∈ rest,
          ({ s with orderItems := s.orderItems ++ [⟨oid, p.id, 1, p.price⟩]
            } : State).orderItems.any
            (fun it => it.orderId == oid && it.productId == q.id) = false := by
        intro q hq
        have hne : p.id ≠ q.id := fun he =>
          hnd.1 (he ▸ List.mem_map_of_mem Product.id hq)
        simp [List.any_append, hno q (List.mem_cons_of_mem _ hq), hne]
      rw [ih _ hnd.2 hno2]
      simp

/-- C2: a successful `createOrder` call on an existing customer with
distinct, all-resolvable product ids creates an order whose
`total_amount` is the sum of the resolved products\x27 current prices,
and appends exactly one `OrderItem` per product — quantity 1,
`unit_price` equal to that product\x27s price at creation time — so
the items of the new order are exactly those rows and there are as
many of them as product ids. -/
theorem C2_create_order_success (s : State) (input : OrderInput) (c : Customer)
    (hc : findCustomer s input.customerId = some c)
    (hnd : input.productIds.Nodup)
    (hall : ∀ pid ∈ input.productIds, (findProduct s pid).isSome = true)
    (hfresh : ∀ it ∈ s.orderItems, it.orderId ≠ s.nextOrderId)
    (hsucc : (CreateOrder.mutate s input).1.success = true) :
    (CreateOrder.mutate s input).1.order =
      some ⟨s.nextOrderId, c.id,
        ((input.productIds.filterMap (findProduct s)).map Product.price).sum⟩ ∧
    (CreateOrder.mutate s input).2.orders = s.orders ++
      [⟨s.nextOrderId, c.id,
        ((input.productIds.filterMap (findProduct s)).map Product.price).sum⟩] ∧
    (CreateOrder.mutate s input).2.orderItems =
      s.orderItems ++ (input.productIds.filterMap (findProduct s)).map
        (fun p => ⟨s.nextOrderId, p.id, 1, p.price⟩) ∧
    ((CreateOrder.mutate s input).2.orderItems.filter
        (fun it => it.orderId == s.nextOrderId)) =
      (input.productIds.filterMap (findProduct s)).map
        (fun p => ⟨s.nextOrderId, p.id, 1, p.price⟩) ∧
    ((input.productIds.filterMap (findProduct s)).map
        (fun p => (⟨s.nextOrderId, p.id, 1, p.price⟩ : OrderItem))).length =
      input.productIds.length := by
  have hlen : (input.productIds.filterMap (findProduct s)).length =
      input.productIds.length := by
    have := congrArg List.length (filterMap_findProduct_ids s _ hall)
    simpa using this
  by_cases hE : input.productIds.isEmpty = true
  · exfalso
    simp [CreateOrder.mutate, hc, hE] at hsucc
  · have hE' : input.productIds.isEmpty = false := by
      simpa using hE
    have hfil : input.productIds.filter (fun pid => (findProduct s pid).isNone) = [] := by
      rw [List.filter_eq_nil_iff]
      intro pid hpid
      simp [Option.isNone_iff_eq_none]
      exact Option.isSome_iff_exists.mp (hall pid hpid) |>.elim
        (fun p hp => by simp [hp])
    rcases hfc : orderFullClean
        ⟨s.nextOrderId, c.id,
          ((input.productIds.filterMap (findProduct s)).map Product.price).sum⟩ with
      _ | ⟨e, es⟩
    · have hnd2 : ((input.productIds.filterMap (findProduct s)).map Product.id).Nodup := by
        rw [filterMap_findProduct_ids s _ hall]
        exact hnd
      have hno : ∀ q ∈ input.productIds.filterMap (findProduct s),
          s.orderItems.any
            (fun it => it.orderId == s.nextOrderId && it.productId == q.id) = false := by
        intro q _
        rw [List.any_eq_false]
        intro it hit
        simp [hfresh it hit]
      have hins := insertOrderItems_ok s.nextOrderId
        (input.productIds.filterMap (findProduct s))
        (State.mk s.customers s.products
          (s.orders ++ [⟨s.nextOrderId, c.id,
            ((input.productIds.filterMap (findProduct s)).map Product.price).sum⟩])
          s.orderItems s.nextCustomerId s.nextProductId (s.nextOrderId + 1))
        hnd2 hno
      have hred : CreateOrder.mutate s input =
          (⟨true, some ⟨s.nextOrderId, c.id,
              ((input.productIds.filterMap (findProduct s)).map Product.price).sum⟩,
            "Order created successfully", []⟩,
           State.mk s.customers s.products
            (s.orders ++ [⟨s.nextOrderId, c.id,
              ((input.productIds.filterMap (findProduct s)).map Product.price).sum⟩])
            (s.orderItems ++ (input.productIds.filterMap (findProduct s)).map
              (fun p => ⟨s.nextOrderId, p.id, 1, p.price⟩))
            s.nextCustomerId s.nextProductId (s.nextOrderId + 1)) := by
        simp [CreateOrder.mutate, hc, hE', hfil, hfc, hins]
      have h1 : s.orderItems.filter
          (fun it => it.orderId == s.nextOrderId) = [] := by
        rw [List.filter_eq_nil_iff]
        intro it hit
        simp [hfresh it hit]
      have h2 : ((input.productIds.filterMap (findProduct s)).map
            (fun p => (⟨s.nextOrderId, p.id, 1, p.price⟩ : OrderItem))).filter
          (fun it => it.orderId == s.nextOrderId) =
          (input.productIds.filterMap (findProduct s)).map
            (fun p => (⟨s.nextOrderId, p.id, 1, p.price⟩ : OrderItem)) := by
        rw [List.filter_eq_self]
        intro it hit
        obtain ⟨p, _, rfl⟩ := List.mem_map.mp hit
        simp
      refine ⟨?_, ?_, ?_, ?_, ?_⟩
      · rw [hred]
      · rw [hred]
      · rw [hred]
      · rw [hred]
        simp only [List.filter_append, h1, h2, List.nil_append]
      · simp [hlen]
    · exfalso
      simp [CreateOrder.mutate, hc, hE', hfil, hfc] at hsucc

/-- C2 witness: two existing products priced 2.00 and 1.50; the order
totals 3.50 and carries one item per product. -/
theorem C2_create_order_success_witness :
    let s : State := ⟨[⟨1, "A", "a@x.com", ""⟩],
      [⟨1, "p1", "", 20000, 5⟩, ⟨2, "p2", "", 15000, 5⟩], [], [], 2, 3, 1⟩
    let input : OrderInput := ⟨1, [1, 2]⟩
    (CreateOrder.mutate s input).1.order =
      some ⟨s.nextOrderId, 1,
        ((input.productIds.filterMap (findProduct s)).map Product.price).sum⟩ ∧
    (CreateOrder.mutate s input).2.orders = s.orders ++
      [⟨s.nextOrderId, 1,
        ((input.productIds.filterMap (findProduct s)).map Product.price).sum⟩] ∧
    (CreateOrder.mutate s input).2.orderItems =
      s.orderItems ++ (input.productIds.filterMap (findProduct s)).map
        (fun p => ⟨s.nextOrderId, p.id, 1, p.price⟩) ∧
    ((CreateOrder.mutate s input).2.orderItems.filter
        (fun it => it.orderId == s.nextOrderId)) =
      (input.productIds.filterMap (findProduct s)).map
        (fun p => ⟨s.nextOrderId, p.id, 1, p.price⟩) ∧
    ((input.productIds.filterMap (findProduct s)).map
        (fun p => (⟨s.nextOrderId, p.id, 1, p.price⟩ : OrderItem))).length =
      input.productIds.length :=
  C2_create_order_success _ _ ⟨1, "A", "a@x.com", ""⟩ (by decide) (by decide)
    (by decide) (by decide) (by decide)

theorem ite_singleton_eq_nil {c : Prop} [Decidable c] {m : String}
    (h : (if c then [m] else []) = []) : ¬ c := by
  by_cases hc : c
  · rw [if_pos hc] at h
    exact absurd h (by simp)
  · exact hc

theorem productFullClean_nil_conditions (s : State) (p : Product)
    (h : productFullClean s p = []) :
    ¬ 100 < p.name.length ∧
    s.products.any (fun q => q.id != p.id && q.name == p.name) = false ∧
    ¬ p.price < 100 ∧ p.price % 100 = 0 ∧ ¬ (10 : Int) ^ 12 ≤ p.price ∧
    ¬ p.stock < 0 ∧ ¬ 2147483647 < p.stock := by
  unfold productFullClean at h
  simp only [List.append_eq_nil] at h
  obtain ⟨⟨⟨⟨⟨⟨h1, h2⟩, h3⟩, h4⟩, h5⟩, h6⟩, h7⟩ := h
  refine ⟨ite_singleton_eq_nil h1, ?_, ite_singleton_eq_nil h3,
    not_not.mp (ite_singleton_eq_nil h4), ite_singleton_eq_nil h5,
    ite_singleton_eq_nil h6, ite_singleton_eq_nil h7⟩
  have := ite_singleton_eq_nil h2
  cases hv : s.products.any (fun q => q.id != p.id && q.name == p.name)
  · rfl
  · exact absurd hv this

theorem productFullClean_mapped_state (s : State) (done : List Nat)
    (restock : Int) (p : Product) :
    productFullClean
      (State.mk s.customers
        (s.products.map (fun q => if q.id ∈ done then bump restock q else q))
        s.orders s.orderItems s.nextCustomerId s.nextProductId s.nextOrderId) p =
    productFullClean s p := by
  have hpt : ∀ q : Product,
      (((if q.id ∈ done then bump restock q else q).id != p.id) &&
        ((if q.id ∈ done then bump restock q else q).name == p.name)) =
      ((q.id != p.id) && (q.name == p.name)) := by
    intro q
    by_cases h : q.id ∈ done <;> simp [h, bump]
  have hfn : ((fun q : Product => q.id != p.id && q.name == p.name) ∘
      fun q => if q.id ∈ done then bump restock q else q) =
      (fun q : Product => q.id != p.id && q.name == p.name) :=
    funext fun q => by simpa [Function.comp] using hpt q
  unfold productFullClean
  simp only [List.any_map]
  rw [hfn]

theorem productFullClean_bump (s : State) (restock : Int) (hr : 0 < restock)
    (hb : restock ≤ 2147483638) (p : Product)
    (hp : productFullClean s p = []) (hlow : p.stock < 10) :
    productFullClean s (bump restock p) = [] := by
  obtain ⟨h1, h2, h3, h4, h5, h6, h7⟩ := productFullClean_nil_conditions s p hp
  have hs1 : ¬ p.stock + restock < 0 := by omega
  have hs2 : ¬ 2147483647 < p.stock + restock := by omega
  have h5l : ¬ (1000000000000 : Int) ≤ p.price := by
    intro hcon
    exact h5 (by simpa using hcon)
  simp [productFullClean, bump, h1, h2, h3, h4, h5l, hs1, hs2]

theorem saveProduct_mapped (s : State) (restock : Int) (done : List Nat)
    (p : Product) (hp : p ∈ s.products)
    (hnd : (s.products.map Product.id).Nodup) :
    saveProduct
      (State.mk s.customers
        (s.products.map (fun q => if q.id ∈ done then bump restock q else q))
        s.orders s.orderItems s.nextCustomerId s.nextProductId s.nextOrderId)
      (bump restock p) =
    State.mk s.customers
      (s.products.map (fun q => if q.id ∈ done ++ [p.id] then bump restock q else q))
      s.orders s.orderItems s.nextCustomerId s.nextProductId s.nextOrderId := by
  unfold saveProduct
  simp only [List.map_map]
  have hmap : s.products.map
      ((fun q => if q.id == (bump restock p).id then bump restock p else q) ∘
        (fun q => if q.id ∈ done then bump restock q else q)) =
      s.products.map (fun q => if q.id ∈ done ++ [p.id] then bump restock q else q) := by
    apply List.map_congr_left
    intro q hq
    by_cases h1 : q.id = p.id
    · have hqp : q = p := List.inj_on_of_nodup_map hnd hq hp h1
      subst hqp
      by_cases h2 : q.id ∈ done <;> simp [h2, bump, Function.comp]
    · by_cases h2 : q.id ∈ done <;> simp [h1, h2, bump, Function.comp]
  rw [hmap]

theorem mem_lowStockQuery (s : State) (p : Product) :
    p ∈ lowStockQuery s ↔ p ∈ s.products ∧ p.stock < 10 := by
  unfold lowStockQuery
  rw [List.mem_insertionSort, List.mem_filter]
  simp

theorem lowStockQuery_ids_nodup (s : State)
    (hnd : (s.products.map Product.id).Nodup) :
    ((lowStockQuery s).map Product.id).Nodup := by
  unfold lowStockQuery
  have hperm := List.perm_insertionSort
    (fun p q : Product => nameLe p.name q.name = true)
    (s.products.filter (fun p => p.stock < 10))
  rw [(hperm.map Product.id).nodup_iff]
  exact List.Nodup.sublist (List.Sublist.map Product.id (List.filter_sublist _)) hnd

theorem restockGo_ok (restock : Int) (s : State) (hr : 0 < restock)
    (hb : restock ≤ 2147483638) (hwf : WF s) :
    ∀ (rest : List Product) (done : List Nat) (u : List Product),
      (∀ p ∈ rest, p ∈ s.products ∧ p.stock < 10 ∧ p.id ∉ done) →
      (rest.map Product.id).Nodup →
      restockGo restock
        (State.mk s.customers
          (s.products.map (fun q => if q.id ∈ done then bump restock q else q))
          s.orders s.orderItems s.nextCustomerId s.nextProductId s.nextOrderId)
        u rest =
      (⟨true, u ++ rest.map (bump restock),
        "Successfully updated " ++
          toString (u ++ rest.map (bump restock)).length ++ " low-stock products",
        []⟩,
       State.mk s.customers
        (s.products.map
          (fun q => if q.id ∈ done ++ rest.map Product.id then bump restock q else q))
        s.orders s.orderItems s.nextCustomerId s.nextProductId s.nextOrderId) := by
  intro rest
  induction rest with
  | nil =>
      intro done u _ _
      simp [restockGo]
  | cons p rest ih =>
      intro done u hmem hnd
      rw [List.map_cons, List.nodup_cons] at hnd
      obtain ⟨hpin, hplow, hpdone⟩ := hmem p (List.mem_cons_self p rest)
      have hclean : productFullClean
          (State.mk s.customers
            (s.products.map (fun q => if q.id ∈ done then bump restock q else q))
            s.orders s.orderItems s.nextCustomerId s.nextProductId s.nextOrderId)
          (bump restock p) = [] := by
        rw [productFullClean_mapped_state]
        exact productFullClean_bump s restock hr hb p (hwf.2 p hpin) hplow
      unfold restockGo
      dsimp only
      rw [hclean]
      rw [saveProduct_mapped s restock done p hpin hwf.1]
      rw [ih (done ++ [p.id]) (u ++ [bump restock p]) ?_ hnd.2]
      · simp [List.append_assoc]
      · intro q hq
        obtain ⟨hq1, hq2, hq3⟩ := hmem q (List.mem_cons_of_mem p hq)
        refine ⟨hq1, hq2, ?_⟩
        intro hcon
        rcases List.mem_append.mp hcon with h | h
        · exact hq3 h
        · have : q.id = p.id := by simpa using h
          exact hnd.1 (this ▸ List.mem_map_of_mem Product.id hq)

theorem restock_mutate_spec (s : State) (restock : Int) (hwf : WF s)
    (hr : 0 < restock) (hb : restock ≤ 2147483638) :
    (UpdateLowStockProducts.mutate s restock).1.success = true ∧
    (UpdateLowStockProducts.mutate s restock).1.updatedProducts =
      (lowStockQuery s).map (bump restock) ∧
    (UpdateLowStockProducts.mutate s restock).2.products =
      s.products.map (fun q => if q.stock < 10 then bump restock q else q) := by
  have hnotle : ¬ restock ≤ 0 := by omega
  by_cases hE : lowStockQuery s = []
  · have hnone : ∀ q ∈ s.products, ¬ q.stock < 10 := by
      intro q hq hlow
      have := (mem_lowStockQuery s q).mpr ⟨hq, hlow⟩
      rw [hE] at this
      simp at this
    have hmap : s.products.map
        (fun q => if q.stock < 10 then bump restock q else q) = s.products := by
      calc s.products.map (fun q => if q.stock < 10 then bump restock q else q)
          = s.products.map id := List.map_congr_left (fun q hq => by simp [hnone q hq])
        _ = s.products := List.map_id _
    refine ⟨?_, ?_, ?_⟩ <;> simp [UpdateLowStockProducts.mutate, hnotle, hE, hmap]
  · have hcond : ∀ q ∈ s.products,
        q.id ∈ (lowStockQuery s).map Product.id ↔ q.stock < 10 := by
      intro q hq
      constructor
      · intro h
        obtain ⟨l, hl, hlid⟩ := List.mem_map.mp h
        obtain ⟨hlin, hllow⟩ := (mem_lowStockQuery s l).mp hl
        have : l = q := List.inj_on_of_nodup_map hwf.1 hlin hq hlid
        exact this ▸ hllow
      · intro h
        exact List.mem_map_of_mem Product.id ((mem_lowStockQuery s q).mpr ⟨hq, h⟩)
    have hmem0 : ∀ p ∈ lowStockQuery s,
        p ∈ s.products ∧ p.stock < 10 ∧ p.id ∉ ([] : List Nat) := by
      intro p hp
      obtain ⟨h1, h2⟩ := (mem_lowStockQuery s p).mp hp
      exact ⟨h1, h2, by simp⟩
    have hmain := restockGo_ok restock s hr hb hwf (lowStockQuery s) [] []
      hmem0 (lowStockQuery_ids_nodup s hwf.1)
    have hinit : s.products.map
        (fun q => if q.id ∈ ([] : List Nat) then bump restock q else q) =
        s.products := by
      simp
    rw [hinit] at hmain
    have hmain2 : restockGo restock s [] (lowStockQuery s) =
        (⟨true, [] ++ (lowStockQuery s).map (bump restock),
          "Successfully updated " ++
            toString (([] ++ (lowStockQuery s).map (bump restock)).length) ++
            " low-stock products", []⟩,
         State.mk s.customers
          (s.products.map (fun q =>
            if q.id ∈ [] ++ (lowStockQuery s).map Product.id then bump restock q
            else q))
          s.orders s.orderItems s.nextCustomerId s.nextProductId s.nextOrderId) :=
      hmain
    have hfinal : s.products.map (fun q =>
        if q.id ∈ [] ++ (lowStockQuery s).map Product.id then bump restock q
        else q) =
        s.products.map (fun q => if q.stock < 10 then bump restock q else q) :=
      List.map_congr_left (fun q hq => by
        rw [List.nil_append]
        by_cases h : q.stock < 10
        · rw [if_pos ((hcond q hq).mpr h), if_pos h]
        · rw [if_neg (fun hc => h ((hcond q hq).mp hc)), if_neg h])
    have hEb : ¬ (lowStockQuery s).isEmpty = true := by
      simp [List.isEmpty_iff, hE]
    refine ⟨?_, ?_, ?_⟩ <;>
      simp [UpdateLowStockProducts.mutate, hnotle, hEb, hmain2, hfinal]
    intro q hq
    have hc := hcond q hq
    simp only [List.mem_map] at hc
    by_cases h : q.stock < 10
    · rw [if_pos (hc.mpr h), if_pos h]
    · rw [if_neg (fun hcon => h (hc.mp hcon)), if_neg h]

/-- C3 (amended): on a well-formed store, for every positive restock
amount that keeps every updated stock within the backend integer
bound (restockAmount ≤ 2147483638 suffices, since selected stocks
are at most 9), every product with stock strictly below 10 has its
stock increased by exactly the restock amount and appears in the
returned list, and every product with stock 10 or more is left
completely unchanged and absent from the returned list.  (The
unamended claim allowed any positive amount; a restock amount large
enough to push an updated stock past the backend bound 2147483647
makes `full_clean` fail mid-loop, leaving earlier rows updated and
later ones untouched, as the counterexample shows.) -/
theorem C3_restock_updates_low_stock (s : State) (restock : Int)
    (hwf : WF s) (hr : 0 < restock) (hb : restock ≤ 2147483638) :
    (UpdateLowStockProducts.mutate s restock).1.success = true ∧
    (UpdateLowStockProducts.mutate s restock).2.products =
      s.products.map (fun q => if q.stock < 10 then bump restock q else q) ∧
    (∀ p ∈ s.products, p.stock < 10 →
      bump restock p ∈ (UpdateLowStockProducts.mutate s restock).1.updatedProducts) ∧
    (∀ p ∈ s.products, 10 ≤ p.stock →
      p ∈ (UpdateLowStockProducts.mutate s restock).2.products ∧
      ∀ q ∈ (UpdateLowStockProducts.mutate s restock).1.updatedProducts,
        q.id ≠ p.id) := by
  obtain ⟨h1, h2, h3⟩ := restock_mutate_spec s restock hwf hr hb
  refine ⟨h1, h3, ?_, ?_⟩
  · intro p hp hlow
    rw [h2]
    exact List.mem_map_of_mem (bump restock)
      ((mem_lowStockQuery s p).mpr ⟨hp, hlow⟩)
  · intro p hp hhigh
    constructor
    · rw [h3]
      refine List.mem_map.mpr ⟨p, hp, ?_⟩
      rw [if_neg (not_lt.mpr hhigh)]
    · intro q hq
      rw [h2] at hq
      obtain ⟨l, hl, rfl⟩ := List.mem_map.mp hq
      obtain ⟨hlin, hllow⟩ := (mem_lowStockQuery s l).mp hl
      intro hid
      have hbid : (bump restock l).id = l.id := rfl
      have : l = p := List.inj_on_of_nodup_map hwf.1 hlin hp (hbid ▸ hid)
      rw [this] at hllow
      omega

/-- C3 counterexample: stocks 1 and 9 (fetched in name order), restock
amount 2147483640 — a valid positive GraphQL Int.  The first product
updates to 2147483641, the second would exceed the 2147483647 field
bound, `full_clean` raises, and the call returns failure: the second
product, although below the threshold, is neither increased nor
returned, so the claim fails for this positive restock amount. -/
theorem C3_counterexample_overflow_partial :
    let s : State := ⟨[], [⟨1, "a", "", 10000, 1⟩, ⟨2, "b", "", 10000, 9⟩],
      [], [], 1, 3, 1⟩
    (0 : Int) < 2147483640 ∧
    (⟨2, "b", "", 10000, 9⟩ : Product) ∈ s.products ∧ (9 : Int) < 10 ∧
    (UpdateLowStockProducts.mutate s 2147483640).1.success = false ∧
    (UpdateLowStockProducts.mutate s 2147483640).1.updatedProducts = [] ∧
    (UpdateLowStockProducts.mutate s 2147483640).2.products =
      [⟨1, "a", "", 10000, 2147483641⟩, ⟨2, "b", "", 10000, 9⟩] := by
  refine ⟨by decide, by decide, by decide, by decide, by decide, by decide⟩

/-- C3 witness: restock 5 over stocks [3, 12, 7] — the spec's own
example. -/
theorem C3_restock_updates_low_stock_witness :
    let s : State := ⟨[], [⟨1, "a", "", 10000, 3⟩, ⟨2, "b", "", 10000, 12⟩,
      ⟨3, "c", "", 10000, 7⟩], [], [], 1, 4, 1⟩
    (UpdateLowStockProducts.mutate s 5).1.success = true ∧
    (UpdateLowStockProducts.mutate s 5).2.products =
      s.products.map (fun q => if q.stock < 10 then bump 5 q else q) ∧
    (∀ p ∈ s.products, p.stock < 10 →
      bump 5 p ∈ (UpdateLowStockProducts.mutate s 5).1.updatedProducts) ∧
    (∀ p ∈ s.products, 10 ≤ p.stock →
      p ∈ (UpdateLowStockProducts.mutate s 5).2.products ∧
      ∀ q ∈ (UpdateLowStockProducts.mutate s 5).1.updatedProducts, q.id ≠ p.id) :=
  C3_restock_updates_low_stock _ 5 ⟨by decide, by decide⟩ (by decide) (by decide)

/-- C4 (amended): on a well-formed store, provided every updated stock
stays within the backend integer bound (restockAmount ≤ 2147483638
suffices), the restock is all-or-nothing: either the state is
untouched or exactly the low-stock products are bumped, and a
`success = false` result (the non-positive-amount rejection) changes
nothing.  (The unamended claim asserted atomicity for every call; with
a large enough restock amount a mid-loop `full_clean` failure is
caught inside the atomic block, which then commits the earlier saves,
as the counterexample shows.) -/
theorem C4_restock_all_or_nothing (s : State) (restock : Int)
    (hwf : WF s) (hb : restock ≤ 2147483638) :
    ((UpdateLowStockProducts.mutate s restock).1.success = false →
      (UpdateLowStockProducts.mutate s restock).2 = s) ∧
    ((UpdateLowStockProducts.mutate s restock).2 = s ∨
      (UpdateLowStockProducts.mutate s restock).2.products =
        s.products.map (fun q => if q.stock < 10 then bump restock q else q)) := by
  by_cases hr : restock ≤ 0
  · constructor
    · intro _
      simp [UpdateLowStockProducts.mutate, hr]
    · left
      simp [UpdateLowStockProducts.mutate, hr]
  · obtain ⟨h1, _, h3⟩ := restock_mutate_spec s restock hwf (by omega) hb
    constructor
    · intro hcon
      rw [h1] at hcon
      exact absurd hcon (by simp)
    · right
      exact h3

/-- C4 counterexample: stocks 2 and 8, restock amount 2147483641 — the
first fetched product is updated and committed, the second fails
`full_clean`, and the call returns `success = false` with the first
product's stock durably changed: partial application. -/
theorem C4_counterexample_partial_commit :
    let s : State := ⟨[], [⟨1, "c", "", 10000, 2⟩, ⟨2, "d", "", 10000, 8⟩],
      [], [], 1, 3, 1⟩
    (UpdateLowStockProducts.mutate s 2147483641).1.success = false ∧
    (UpdateLowStockProducts.mutate s 2147483641).2 ≠ s ∧
    (UpdateLowStockProducts.mutate s 2147483641).2.products =
      [⟨1, "c", "", 10000, 2147483643⟩, ⟨2, "d", "", 10000, 8⟩] := by
  refine ⟨by decide, by decide, by decide⟩

/-- C4 witness: the rejection branch at restock 0 changes nothing, and
restock 5 bumps exactly the low-stock rows. -/
theorem C4_restock_all_or_nothing_witness :
    ((UpdateLowStockProducts.mutate
        ⟨[], [⟨1, "a", "", 10000, 3⟩], [], [], 1, 2, 1⟩ 0).1.success = false →
      (UpdateLowStockProducts.mutate
        ⟨[], [⟨1, "a", "", 10000, 3⟩], [], [], 1, 2, 1⟩ 0).2 =
        ⟨[], [⟨1, "a", "", 10000, 3⟩], [], [], 1, 2, 1⟩) ∧
    ((UpdateLowStockProducts.mutate
        ⟨[], [⟨1, "a", "", 10000, 3⟩], [], [], 1, 2, 1⟩ 0).2 =
        ⟨[], [⟨1, "a", "", 10000, 3⟩], [], [], 1, 2, 1⟩ ∨
      (UpdateLowStockProducts.mutate
        ⟨[], [⟨1, "a", "", 10000, 3⟩], [], [], 1, 2, 1⟩ 0).2.products =
        [⟨1, "a", "", 10000, 3⟩].map (fun q => if q.stock < 10 then bump 0 q else q)) :=
  C4_restock_all_or_nothing ⟨[], [⟨1, "a", "", 10000, 3⟩], [], [], 1, 2, 1⟩ 0
    ⟨by decide, by decide⟩ (by decide)
